import Mathlib

/-!
# Verification of the DNSCloak SOS chat subsystem

A shallow embedding, in Lean 4, of the SOS secure-chat subsystem of the
DNSCloak repository, together with proofs and refutations of the testable
properties stated in its specification.

Embedded source files:
* `chat/sos/crypto.py`  — key derivation, PIN rotation, authenticated encryption;
* `src/sos/relay.py`    — room registry, rate limiter, HTTP handlers;
* `chat/sos/transport.py` — client transport state machine;
* `src/sos/app.py`      — the controller's inbound-message decryption path.

Conventions of the embedding:
* byte strings are `List Nat` with every produced byte `< 256`;
* Python `float` timestamps are rationals (`ℚ`);
* Python functions that may raise are embedded in `Except`/`Option`;
* randomness (nonces, uuids, the wall clock) is passed as explicit parameters;
* calls into external libraries (`hashlib.sha256`, `argon2.low_level`,
  `nacl.secret.SecretBox`) are replaced by concrete executable stand-ins that
  preserve the library's interface contract (determinism, input assembly,
  wire layout, tag verification, decryption inverting encryption); the claims
  proved here depend only on those contractual properties, not on the actual
  SHA-256 / Argon2id / XSalsa20-Poly1305 bit patterns.
-/

set_option maxHeartbeats 1000000

set_option maxRecDepth 100000

namespace SOS

/-! ## Byte strings and the UTF-8 codec -/

/-- Byte strings: lists of naturals, every byte produced by the model `< 256`. -/
abbrev Bytes := List Nat

/-- UTF-8 encoding of one Unicode scalar value, by the standard range split
(model of CPython's `str.encode("utf-8")`, one code point at a time). -/
def utf8EncodeChar (n : Nat) : List Nat :=
  if n < 128 then [n]
  else if n < 2048 then [192 + n / 64, 128 + n % 64]
  else if n < 65536 then [224 + n / 4096, 128 + n / 64 % 64, 128 + n % 64]
  else [240 + n / 262144, 128 + n / 4096 % 64, 128 + n / 64 % 64, 128 + n % 64]

/-- UTF-8 encoding of a string (model of CPython's `str.encode("utf-8")`).
Lean `Char`s are exactly the Unicode scalar values, so encoding is total,
as it is on every Python `str` that reaches `.encode` in this code base. -/
def utf8Encode (s : String) : Bytes :=
  s.data.flatMap (fun c => utf8EncodeChar c.toNat)

/-- One pass of a strict UTF-8 decoder (model of CPython's
`bytes.decode("utf-8")`): rejects stray or missing continuation bytes,
overlong encodings, surrogates, and out-of-range code points.
The first argument holds the in-progress code point while continuation
bytes are pending: accumulated value, number of continuation bytes still
expected, and the minimal value admissible for the chosen length
(the overlong check). -/
def utf8Run : Option (Nat × Nat × Nat) → List Nat → Option (List Char)
  | none, [] => some []
  | some _, [] => none
  | none, b :: bs =>
    if b < 128 then (utf8Run none bs).map (fun cs => Char.ofNat b :: cs)
    else if b < 192 then none
    else if b < 224 then utf8Run (some (b - 192, 1, 128)) bs
    else if b < 240 then utf8Run (some (b - 224, 2, 2048)) bs
    else if b < 248 then utf8Run (some (b - 240, 3, 65536)) bs
    else none
  | some (acc, need, mv), b :: bs =>
    if 128 ≤ b ∧ b < 192 then
      if need = 1 then
        if mv ≤ acc * 64 + (b - 128) ∧
            (acc * 64 + (b - 128) < 55296 ∨ 57343 < acc * 64 + (b - 128)) ∧
            acc * 64 + (b - 128) < 1114112 then
          (utf8Run none bs).map (fun cs => Char.ofNat (acc * 64 + (b - 128)) :: cs)
        else none
      else utf8Run (some (acc * 64 + (b - 128), need - 1, mv)) bs
    else none

/-- Strict UTF-8 decoding of a byte string to a list of scalar values. -/
def utf8DecodeChars (bs : List Nat) : Option (List Char) :=
  utf8Run none bs

/-- Strict UTF-8 decoding of a byte string to a `String`. -/
def utf8Decode (bs : Bytes) : Option String :=
  (utf8DecodeChars bs).map (fun cs => { data := cs })

/-! ## Concrete stand-ins for the external cryptographic libraries

The Python code calls `hashlib.sha256`, `argon2.low_level.hash_secret_raw` and
`nacl.secret.SecretBox`. These are not part of this repository; the model
replaces their primitives with concrete executable functions that keep every
contractual property the code relies on: determinism, dependence on the full
input, the SecretBox wire layout `nonce ∥ tag ∥ ciphertext`, verification of
the tag before release of the plaintext, and decryption inverting encryption
under the same key and nonce. No claim settled here depends on the actual
SHA-256 / Argon2id / XSalsa20-Poly1305 bit patterns. -/

/-- Polynomial absorption of a byte string: the digest core shared by the
stand-in primitives. -/
def absorb (bs : Bytes) : Nat :=
  bs.foldl (fun acc b => (acc * 257 + b + 1) % 4294967291) 7

/-- Stand-in for `hashlib.sha256(x).digest()`: 32 bytes, a deterministic
function of the whole input. -/
def sha256 (bs : Bytes) : Bytes :=
  (List.range 32).map (fun i => (absorb bs * (2 * i + 3) + i * i) % 256)

/-- The hex digits (nibble values) of a byte string, in the order produced by
`hashlib...hexdigest()`. -/
def hexNibbles (bs : Bytes) : List Nat :=
  bs.flatMap (fun b => [b / 16 % 16, b % 16])

/-- Python `hexdigest()` as a string of lowercase hex characters. -/
def hexString (bs : Bytes) : String :=
  { data := (hexNibbles bs).map Nat.digitChar }

/-- Stand-in for `argon2.low_level.hash_secret_raw`: `hash_len` bytes, a
deterministic function of secret, salt and the cost parameters. -/
def hash_secret_raw (secret salt : Bytes)
    (time_cost memory_cost parallelism hash_len : Nat) : Bytes :=
  (List.range hash_len).map
    (fun i =>
      (absorb (secret ++ [256] ++ salt) * (2 * i + 5)
        + time_cost + memory_cost + parallelism + i) % 256)

/-- Stand-in for the XSalsa20 key stream: byte `i` of the stream under a given
key and nonce. -/
def keystream (key nonce : Bytes) (i : Nat) : Nat :=
  (absorb (key ++ [257] ++ nonce) * (2 * i + 7) + i) % 256

/-- XOR of a byte string against the key stream, starting at stream index `i`. -/
def streamXor (key nonce : Bytes) : Nat → Bytes → Bytes
  | _, [] => []
  | i, b :: bs => (b ^^^ keystream key nonce i) :: streamXor key nonce (i + 1) bs

/-- Stand-in for the Poly1305 tag: 16 bytes over key, nonce and ciphertext. -/
def polyTag (key nonce ct : Bytes) : Bytes :=
  (List.range 16).map
    (fun i => (absorb (key ++ [258] ++ nonce ++ [259] ++ ct) * (2 * i + 9) + i) % 256)

/-- The 24-byte nonce obtained from the random source `r`
(stand-in for `nacl.utils.random(SecretBox.NONCE_SIZE)`). -/
def nonceOf (r : Nat) : Bytes :=
  (List.range 24).map (fun i => r / 256 ^ i % 256)

/-- Model of `SecretBox(key).encrypt(pt, nonce)`: the wire blob is
`nonce ∥ tag ∥ ciphertext`, deterministic given key and nonce. -/
def secretboxSeal (key nonce pt : Bytes) : Bytes :=
  nonce ++ polyTag key nonce (streamXor key nonce 0 pt) ++ streamXor key nonce 0 pt

/-- Model of `SecretBox(key).decrypt(blob)`: `none` stands for the `nacl`
`CryptoError` family (bad key size, input too short for nonce and tag, tag
mismatch), which is exactly what `crypto.decrypt_message` catches. -/
def secretboxOpen (key blob : Bytes) : Option Bytes :=
  if key.length ≠ 32 then none
  else if blob.length < 40 then none
  else
    let nonce := blob.take 24
    let tag := (blob.drop 24).take 16
    let ct := (blob.drop 24).drop 16
    if tag = polyTag key nonce ct then some (streamXor key nonce 0 ct) else none

/-! ## `chat/sos/crypto.py` -/

/-- Python `RoomCredentials` (crypto.py): room identification and encryption
credentials. `room_id` is the six emojis joined; timestamps are rationals. -/
structure RoomCredentials where
  room_id : String
  emojis : List String
  mode : String
  created_at : ℚ
  fixed_pin : Option String := none

/-- Python truthiness of an `Optional[float]`: `None` and `0` are falsy
(the `if timestamp:` test in `derive_room_key`). -/
def truthyQ : Option ℚ → Bool
  | none => false
  | some x => decide (x ≠ 0)

/-- Python `int(x)` on a float: truncation toward zero. -/
def pyInt (q : ℚ) : Int :=
  q.num.tdiv (q.den : Int)

/-- Python `int(x // d)` for a positive divisor: the floor of `x / d`. -/
def ratFloor (q : ℚ) : Int :=
  q.num.fdiv (q.den : Int)

/-- Stand-in for the fresh random PIN `generate_pin()` returns when a
fixed-mode credential has no stored PIN (an unreachable corner for
well-formed credentials, where `mode = "fixed"` implies `fixed_pin` present). -/
def defaultGeneratedPin : String := "000000"

/-- Python `get_current_pin` (crypto.py); the wall clock `time.time()` is the
explicit parameter `now`. Rotating mode hashes `room_id ∥ ":" ∥ bucket` with
`bucket = int(now // 15)` and maps the first six hex digits of the digest to
decimal digits. -/
def get_current_pin (creds : RoomCredentials) (now : ℚ) : String :=
  if creds.mode = "fixed" then
    creds.fixed_pin.getD defaultGeneratedPin
  else
    let bucket := ratFloor (now / 15)
    let seed := utf8Encode (creds.room_id ++ ":" ++ toString bucket)
    { data := ((hexNibbles (sha256 seed)).take 6).map (fun v => Nat.digitChar (v % 10)) }

/-- The salt computed by `derive_room_key` (crypto.py): the anchor is appended
to the salt input only when `timestamp` is truthy (not `None` and nonzero). -/
def derive_salt (emojis : List String) (timestamp : Option ℚ) : Bytes :=
  let salt_input := "sos-chat-v1:" ++ String.join emojis
  let salt_input :=
    if truthyQ timestamp then salt_input ++ ":" ++ toString (pyInt (timestamp.getD 0))
    else salt_input
  (sha256 (utf8Encode salt_input)).take 16

/-- Python `derive_room_key` (crypto.py): Argon2id over
`emojis ∥ ":" ∥ pin` with the salt of `derive_salt`, time cost 2, memory cost
65536, parallelism 1, output length 32. -/
def derive_room_key (emojis : List String) (pin : String) (timestamp : Option ℚ) : Bytes :=
  let emoji_str := String.join emojis
  let password := utf8Encode (emoji_str ++ ":" ++ pin)
  hash_secret_raw password (derive_salt emojis timestamp) 2 65536 1 32

/-- Python `get_encryption_key` (crypto.py): fixed mode anchors at `created_at`,
rotating mode at `int(now // 15) * 15`. -/
def get_encryption_key (creds : RoomCredentials) (pin : String) (now : ℚ) : Bytes :=
  if creds.mode = "fixed" then
    derive_room_key creds.emojis pin (some creds.created_at)
  else
    derive_room_key creds.emojis pin (some ((ratFloor (now / 15) * 15 : Int) : ℚ))

/-- Python `encrypt_message` (crypto.py); the nonce randomness is the explicit
parameter `r`. -/
def encrypt_message (message : String) (key : Bytes) (r : Nat) : Bytes :=
  secretboxSeal key (nonceOf r) (utf8Encode message)

/-- The one Python exception that can escape `decrypt_message`. -/
inductive PyExn where
  | unicodeDecodeError
  deriving DecidableEq

/-- Python `decrypt_message` (crypto.py): `box.decrypt` failures (`CryptoError`) are
caught and become `none`; a `UnicodeDecodeError` raised by
`decrypted.decode("utf-8")` is not caught and escapes. -/
def decrypt_message (encrypted : Bytes) (key : Bytes) : Except PyExn (Option String) :=
  match secretboxOpen key encrypted with
  | none => .ok none
  | some pt =>
    match utf8Decode pt with
    | some s => .ok (some s)
    | none => .error .unicodeDecodeError

/-- Python `try_decrypt_rotating` (crypto.py): a single attempt with the
current-bucket key; the `if msg:` test is Python truthiness on `Optional[str]`
(`None` and `""` are falsy). -/
def try_decrypt_rotating (encrypted : Bytes) (creds : RoomCredentials) (now : ℚ) :
    Except PyExn (Option (String × String)) :=
  let current_pin := get_current_pin creds now
  let key := get_encryption_key creds current_pin now
  match decrypt_message encrypted key with
  | .error e => .error e
  | .ok msg => if msg.getD "" ≠ "" then .ok (some (msg.getD "", current_pin)) else .ok none

/-- Python `room_id_to_hash` (crypto.py): first 16 hex characters of the digest of
the joined emojis. -/
def room_id_to_hash (emojis : List String) : String :=
  (hexString (sha256 (utf8Encode (String.join emojis)))).take 16

/-- The salt as the specification words it (claim C5): the first 16 bytes of
SHA-256 over `"sos-chat-v1:" ∥ emojis ∥ ":" ∥ anchor`, with the decimal anchor
always present. -/
def spec_salt (emojis : List String) (anchor : Int) : Bytes :=
  (sha256 (utf8Encode ("sos-chat-v1:" ++ String.join emojis ++ ":" ++ toString anchor))).take 16

/-! ## `src/sos/relay.py` — configuration and rate limiter -/

/-- Python `ROOM_TTL` (relay.py): one hour. -/
def ROOM_TTL : Nat := 3600

/-- Python `MAX_MESSAGES` (relay.py): max messages per room. -/
def MAX_MESSAGES : Nat := 500

/-- Python `RATE_LIMIT_COOLDOWN` (relay.py): 30 min cooldown reset. -/
def RATE_LIMIT_COOLDOWN : Nat := 1800

/-- Python `RATE_LIMIT_DELAYS` (relay.py). -/
def RATE_LIMIT_DELAYS : List Nat := [0, 10, 30, 60, 180, 300]

/-- One value of the `RateLimiter._attempts` dict (relay.py): attempt counter
and last-attempt instant for one client IP. -/
structure RLEntry where
  count : Nat
  last_attempt : ℚ
  deriving DecidableEq

/-- Python `RateLimiter.check` (relay.py), for one IP: the dict maps distinct IPs to
disjoint entries, so the entry for the caller's IP (`none` when the dict has
no entry) together with the clock `now` determines the outcome. Returns
`(allowed, retry_after, updated entry)`. -/
def RateLimiter.check (slot : Option RLEntry) (now : ℚ) : Bool × Int × Option RLEntry :=
  match slot with
  | none => (true, 0, some ⟨0, now⟩)
  | some data =>
    if now - data.last_attempt > (RATE_LIMIT_COOLDOWN : ℚ) then
      (true, 0, some ⟨0, now⟩)
    else
      let delay_idx := min data.count (RATE_LIMIT_DELAYS.length - 1)
      let required_delay : ℚ := (RATE_LIMIT_DELAYS.getD delay_idx 0 : ℚ)
      let elapsed := now - data.last_attempt
      if elapsed ≥ required_delay then
        (true, 0, some ⟨data.count + 1, now⟩)
      else
        (false, pyInt (required_delay - elapsed), some data)

/-- Python `RateLimiter.reset` (relay.py): deletes the IP's entry
(called on successful join). -/
def RateLimiter.reset (slot : Option RLEntry) : Option RLEntry :=
  none

/-- A sequence of `RateLimiter.check` calls for one IP at the given instants,
collecting each attempt's verdict. -/
def RateLimiter.run (slot : Option RLEntry) : List ℚ → Option RLEntry × List Bool
  | [] => (slot, [])
  | t :: ts =>
    let r := RateLimiter.check slot t
    let rest := RateLimiter.run r.2.2 ts
    (rest.1, r.1 :: rest.2)

/-! ## `src/sos/relay.py` — rooms and HTTP handlers -/

/-- Python `MessageData` (relay.py). -/
structure MessageData where
  id : String
  sender : String
  content : String
  timestamp : ℚ
  deriving DecidableEq

/-- Python `RoomData` (relay.py); `members` is the insertion-ordered
`member_id → nickname` dict. -/
structure RoomData where
  room_hash : String
  mode : String
  created_at : ℚ
  expires_at : ℚ
  members : List (String × String)
  messages : List MessageData
  deriving DecidableEq

/-- The JSON body of `POST /room` as the handler reads it: both fields may be
absent. The `mode` field is read by no code path — `handle_create_room`
hard-codes `mode = "fixed"`. -/
structure CreateBody where
  room_hash : Option String
  mode : Option String
  deriving DecidableEq

/-- Outcome of `handle_create_room` (relay.py): 429, the three 400 tags,
409, or 200 with the new room and the creator's member id. -/
inductive CreateResult where
  | rateLimited (retry_after : Int)
  | invalidJson
  | invalidRoomHash
  | invalidMode
  | roomExists
  | created (room : RoomData) (member_id : String)
  deriving DecidableEq

/-- Python `handle_create_room` (relay.py). Explicit parameters replace the ambient
state: the caller IP's rate-limiter entry, the clock, the parsed body (`none`
for malformed JSON), whether a non-expired room with this fingerprint exists,
and the fresh `member_id` drawn from `uuid4`. The handler sets
`mode = "fixed"` regardless of the body, checks only `not room_hash or
len(room_hash) != 16` (a missing key yields `None`, falsy like `""`), and the
`mode not in ("fixed",)` check can never fire. -/
def handle_create_room (slot : Option RLEntry) (now : ℚ) (body : Option CreateBody)
    (existing : Bool) (member_id : String) : CreateResult × Option RLEntry :=
  let chk := RateLimiter.check slot now
  if chk.1 = false then (.rateLimited chk.2.1, chk.2.2)
  else
    match body with
    | none => (.invalidJson, chk.2.2)
    | some data =>
      let mode := "fixed"
      if data.room_hash.getD "" = "" ∨ (data.room_hash.getD "").length ≠ 16 then
        (.invalidRoomHash, chk.2.2)
      else if mode ∉ (["fixed"] : List String) then
        (.invalidMode, chk.2.2)
      else if existing then
        (.roomExists, chk.2.2)
      else
        (.created
          { room_hash := data.room_hash.getD ""
            mode := mode
            created_at := now
            expires_at := now + (ROOM_TTL : ℚ)
            members := [(member_id, "creator")]
            messages := [] } member_id, chk.2.2)

/-- The JSON body of `POST /room/{fp}/send` as the handler reads it. -/
structure SendBody where
  content : Option String
  sender : Option String
  member_id : Option String
  deriving DecidableEq

/-- The sender stored by `handle_send_message`: `data.get("sender", "anon")`,
overridden by the roster nickname when `member_id` is truthy and known
(`if member_id and member_id in room.members`). -/
def sentSender (members : List (String × String)) (data : SendBody) : String :=
  match data.member_id with
  | some mid =>
    if mid ≠ "" ∧ (members.find? (fun p => p.1 = mid)).isSome then
      (((members.find? (fun p => p.1 = mid)).map Prod.snd).getD (data.sender.getD "anon"))
    else data.sender.getD "anon"
  | none => data.sender.getD "anon"

/-- Python `handle_send_message` (relay.py), after the room lookup succeeded.
Explicit parameters: the room, the parsed body (`none` for malformed JSON),
the fresh message id from `uuid4`, and the server clock. Returns the response
(`none` for a 400, `some (id, timestamp)` for 200) and the updated room.
`if not content` is Python truthiness (`None` and `""` rejected); a truthy
`member_id` found in the roster overrides the sender; the log is trimmed to
the last `MAX_MESSAGES` entries when it overflows. -/
def handle_send_message (room : RoomData) (body : Option SendBody) (msg_id : String)
    (now : ℚ) : Option (String × ℚ) × RoomData :=
  match body with
  | none => (none, room)
  | some data =>
    let content := data.content.getD ""
    if content = "" then (none, room)
    else
      let msg : MessageData := ⟨msg_id, sentSender room.members data, content, now⟩
      let appended := room.messages ++ [msg]
      let trimmed :=
        if appended.length > MAX_MESSAGES then
          appended.drop (appended.length - MAX_MESSAGES)
        else appended
      (some (msg_id, now), { room with messages := trimmed })

/-- The response of `GET /room/{fp}/poll` (relay.py) for a live room. -/
structure PollResult where
  messages : List MessageData
  members : List String
  expires_at : ℚ
  message_count : Nat
  deriving DecidableEq

/-- Python `handle_poll` (relay.py), after the room lookup succeeded: filters the
stored messages by `timestamp > since`, and reports the member list,
`expires_at` and the total message count. -/
def handle_poll (room : RoomData) (since : ℚ) : PollResult :=
  { messages := room.messages.filter (fun m => decide (since < m.timestamp))
    members := room.members.map Prod.snd
    expires_at := room.expires_at
    message_count := room.messages.length }

/-! ### The sliding message window (claim C6) -/

/-- The last `n` elements of a list (`l[-n:]` in Python). -/
def lastN (n : Nat) (l : List α) : List α :=
  l.drop (l.length - n)

/-- The message appended for one accepted send, as a function of the roster
and the `(body, uuid, clock)` input. -/
def sentMessage (members : List (String × String)) (i : SendBody × String × ℚ) : MessageData :=
  ⟨i.2.1, sentSender members i.1, i.1.content.getD "", i.2.2⟩

/-- A sequence of `handle_send_message` calls against one room. -/
def runSends (room : RoomData) : List (SendBody × String × ℚ) → RoomData
  | [] => room
  | i :: rest => runSends (handle_send_message room (some i.1) i.2.1 i.2.2).2 rest

/-! ## `chat/sos/transport.py` -/

/-- Python `ConnectionState` (transport.py). -/
inductive ConnectionState where
  | disconnected
  | connecting
  | connected
  | reconnecting
  | error
  deriving DecidableEq

/-- One entry of `SOSTransport._pending_messages` (transport.py). -/
structure PendingMsg where
  content : String
  sender : String
  queued_at : ℚ
  deriving DecidableEq

/-- Python `transport.Message`. -/
structure MessageT where
  id : String
  sender : String
  content : String
  timestamp : ℚ
  deriving DecidableEq

/-- Python `transport.RoomState`. -/
structure RoomStateT where
  room_hash : String
  mode : String
  created_at : ℚ
  expires_at : ℚ
  members : List String
  message_count : Nat
  deriving DecidableEq

/-- The mutable fields of `SOSTransport` (transport.py) that the embedded
operations read or write. `hasClient` is `self.client is not None`. -/
structure TransportState where
  state : ConnectionState
  hasClient : Bool
  room_hash : Option String
  member_id : Option String
  last_message_ts : ℚ
  pending : List PendingMsg
  backoff : ℚ
  deriving DecidableEq

/-- Python `SOSTransport.connect` (transport.py); whether `_create_client`
succeeds is the explicit parameter `ok`. On success the state becomes
`CONNECTED` and the backoff resets; on failure the state becomes `ERROR`. -/
def SOSTransport.connect (st : TransportState) (ok : Bool) : TransportState × Bool :=
  let st1 := { st with state := ConnectionState.connecting }
  if ok then
    ({ st1 with hasClient := true, state := ConnectionState.connected, backoff := 1 }, true)
  else
    ({ st1 with state := ConnectionState.error }, false)

/-- The network outcome of the single POST in `create_room`. -/
inductive CreateNet where
  | status200 (member_id : Option String) (mode : String) (created_at expires_at : ℚ)
      (members : List String)
  | status429 (retry_after : Int)
  | statusOther
  | reqError

/-- The value produced by `create_room`: a normal return, or the raised
`RateLimitError`. -/
inductive CreateOutcome where
  | normalReturn (rs : Option RoomStateT)
  | raisedRateLimit (retry_after : Int)
  deriving DecidableEq

/-- The body of `SOSTransport.create_room` after the client guard
(transport.py): 200 records `room_hash` and `member_id` and returns a
`RoomState`; 429 raises `RateLimitError`; other statuses return `None`;
`httpx.RequestError` sets `RECONNECTING` and returns `None`. -/
def SOSTransport.create_room_request (st : TransportState) (room_hash : String)
    (net : CreateNet) : TransportState × CreateOutcome :=
  match net with
  | .status200 mid mode ca ea mems =>
    ({ st with room_hash := some room_hash, member_id := mid },
      .normalReturn (some ⟨room_hash, mode, ca, ea, mems, 0⟩))
  | .status429 retry => (st, .raisedRateLimit retry)
  | .statusOther => (st, .normalReturn none)
  | .reqError => ({ st with state := ConnectionState.reconnecting }, .normalReturn none)

/-- Python `SOSTransport.create_room` (transport.py): `if not self.client:` connect
first (failure returns `None`), then issue the request. -/
def SOSTransport.create_room (st : TransportState) (room_hash : String) (connectOk : Bool)
    (net : CreateNet) : TransportState × CreateOutcome :=
  if st.hasClient = false then
    let c := SOSTransport.connect st connectOk
    if c.2 = false then (c.1, .normalReturn none)
    else SOSTransport.create_room_request c.1 room_hash net
  else SOSTransport.create_room_request st room_hash net

/-- The network outcome of the single POST in `join_room`. -/
inductive JoinNet where
  | status200 (member_id : Option String) (last_message_ts : ℚ) (mode : String)
      (created_at expires_at : ℚ) (members : List String) (message_count : Nat)
  | status404
  | status401
  | statusOther
  | reqError

/-- The value produced by `join_room`: a normal return or a raised
`RoomNotFoundError` / `InvalidKeyError`. -/
inductive JoinOutcome where
  | normalReturn (rs : Option RoomStateT)
  | raisedNotFound
  | raisedInvalidKey
  deriving DecidableEq

/-- The body of `SOSTransport.join_room` after the client guard
(transport.py): 200 records `room_hash`, `member_id` and `last_message_ts`;
404 and 401 raise; other statuses return `None`; `httpx.RequestError` sets
`RECONNECTING` and returns `None`. -/
def SOSTransport.join_room_request (st : TransportState) (room_hash : String)
    (net : JoinNet) : TransportState × JoinOutcome :=
  match net with
  | .status200 mid ts mode ca ea mems mc =>
    ({ st with room_hash := some room_hash, member_id := mid, last_message_ts := ts },
      .normalReturn (some ⟨room_hash, mode, ca, ea, mems, mc⟩))
  | .status404 => (st, .raisedNotFound)
  | .status401 => (st, .raisedInvalidKey)
  | .statusOther => (st, .normalReturn none)
  | .reqError => ({ st with state := ConnectionState.reconnecting }, .normalReturn none)

/-- Python `SOSTransport.join_room` (transport.py). -/
def SOSTransport.join_room (st : TransportState) (room_hash : String) (connectOk : Bool)
    (net : JoinNet) : TransportState × JoinOutcome :=
  if st.hasClient = false then
    let c := SOSTransport.connect st connectOk
    if c.2 = false then (c.1, .normalReturn none)
    else SOSTransport.join_room_request c.1 room_hash net
  else SOSTransport.join_room_request st room_hash net

/-- The network outcome of the single POST in `send_message`. -/
inductive SendNet where
  | status (code : Nat)
  | reqError

/-- Python `SOSTransport.send_message` (transport.py): no room returns `False`;
without a client or outside `CONNECTED` the payload is queued; otherwise the
request is issued, a `httpx.RequestError` queueing the payload and setting
`RECONNECTING`. -/
def SOSTransport.send_message (st : TransportState) (content sender : String) (now : ℚ)
    (net : SendNet) : TransportState × Bool :=
  if st.room_hash = none then (st, false)
  else if st.hasClient = false ∨ st.state ≠ ConnectionState.connected then
    ({ st with pending := st.pending ++ [⟨content, sender, now⟩] }, false)
  else
    match net with
    | .status code => (st, decide (code = 200))
    | .reqError =>
      ({ st with
          pending := st.pending ++ [⟨content, sender, now⟩],
          state := ConnectionState.reconnecting }, false)

/-- The maximum timestamp of a non-empty message batch
(`max(m.timestamp for m in messages)`). -/
def maxTimestamp : List MessageT → ℚ
  | [] => 0
  | m :: ms => ms.foldl (fun a x => max a x.timestamp) m.timestamp

/-- The network outcome of the single GET in `poll_messages`. -/
inductive PollNet where
  | status200 (messages : List MessageT) (members : List String) (expires_at : ℚ)
  | status404
  | statusOther
  | reqError

/-- Python `SOSTransport.poll_messages` (transport.py): without a room or client it
returns `[]`; a 200 advances `last_message_ts` to the max returned timestamp
when the batch is non-empty (member/expiry callbacks do not touch transport
state); 404 fires `on_room_expire` and returns `[]`; `httpx.RequestError`
sets `RECONNECTING` and returns `[]`. -/
def SOSTransport.poll_messages (st : TransportState) (net : PollNet) :
    TransportState × List MessageT :=
  if st.room_hash = none ∨ st.hasClient = false then (st, [])
  else
    match net with
    | .status200 msgs _ _ =>
      (if msgs ≠ [] then { st with last_message_ts := maxTimestamp msgs } else st, msgs)
    | .status404 => (st, [])
    | .statusOther => (st, [])
    | .reqError => ({ st with state := ConnectionState.reconnecting }, [])

/-! ## `src/sos/app.py` — the controller's inbound decryption path -/

/-- What `ChatRoomScreen._on_message_received` (app.py) does with one inbound
message, beyond writing to the chat log. -/
inductive ReceiveResult where
  | skippedOwn
  | shown (text : String)
  | keyMismatch
  | undecryptable
  | processFailed
  | noKey
  deriving DecidableEq

/-- Python `ChatRoomScreen._on_message_received` (app.py). Parameters: the room
credentials, the cached `self.encryption_key`, the clock, and the message's
sender and already base64-decoded content (the base64 transport encoding is a
bijection handled before this point; a decode failure lands in the same
`except` as any other exception). The handler first tries the cached key; on
failure (`if decrypted:` is Python truthiness, so `None` and the empty string
both count as failure) and only in rotating mode it tries the current-bucket
key, caching it on success; a `keyMismatch` is reported when both fail. No
other key — in particular no previous- or next-bucket key — is ever tried.
The second component of the result is the cached key afterwards. -/
def on_message_received (creds : RoomCredentials) (encryption_key : Option Bytes)
    (now : ℚ) (sender : String) (content : Bytes) : ReceiveResult × Option Bytes :=
  if sender = "me" then (.skippedOwn, encryption_key)
  else
    match encryption_key with
    | none => (.noKey, none)
    | some key =>
      match decrypt_message content key with
      | .error _ => (.processFailed, some key)
      | .ok dec =>
        if dec.getD "" ≠ "" then (.shown (dec.getD ""), some key)
        else if creds.mode = "rotating" then
          match decrypt_message content
              (get_encryption_key creds (get_current_pin creds now) now) with
          | .error _ => (.processFailed, some key)
          | .ok dec2 =>
            if dec2.getD "" ≠ "" then
              (.shown (dec2.getD ""),
                some (get_encryption_key creds (get_current_pin creds now) now))
            else (.keyMismatch, some key)
        else (.undecryptable, some key)

/-! ## Theorems -/

theorem char_ofNat_toNat (c : Char) : Char.ofNat c.toNat = c := by
  have hv : Nat.isValidChar c.toNat := c.valid
  unfold Char.ofNat
  rw [dif_pos hv]
  rfl

theorem utf8Run_one {b : Nat} (bs : List Nat) (h : b < 128) :
    utf8Run none (b :: bs) = (utf8Run none bs).map (fun cs => Char.ofNat b :: cs) := by
  simp only [utf8Run]
  rw [if_pos h]

theorem utf8Run_two {b c1 : Nat} (bs : List Nat)
    (hb : 192 ≤ b ∧ b < 224) (hc : 128 ≤ c1 ∧ c1 < 192)
    (hn : 128 ≤ (b - 192) * 64 + (c1 - 128)) :
    utf8Run none (b :: c1 :: bs)
      = (utf8Run none bs).map (fun cs => Char.ofNat ((b - 192) * 64 + (c1 - 128)) :: cs) := by
  simp only [utf8Run]
  rw [if_neg (by omega), if_neg (by omega), if_pos (by omega), if_pos hc, if_true,
    if_pos (by omega)]

theorem utf8Run_three {b c1 c2 : Nat} (bs : List Nat)
    (hb : 224 ≤ b ∧ b < 240) (hc1 : 128 ≤ c1 ∧ c1 < 192) (hc2 : 128 ≤ c2 ∧ c2 < 192)
    (hn : 2048 ≤ ((b - 224) * 64 + (c1 - 128)) * 64 + (c2 - 128))
    (hs : ((b - 224) * 64 + (c1 - 128)) * 64 + (c2 - 128) < 55296 ∨
      57343 < ((b - 224) * 64 + (c1 - 128)) * 64 + (c2 - 128)) :
    utf8Run none (b :: c1 :: c2 :: bs)
      = (utf8Run none bs).map
          (fun cs => Char.ofNat (((b - 224) * 64 + (c1 - 128)) * 64 + (c2 - 128)) :: cs) := by
  simp only [utf8Run]
  rw [if_neg (by omega), if_neg (by omega), if_neg (by omega), if_pos (by omega), if_pos hc1,
    if_neg (by omega), if_pos hc2, if_true, if_pos (by omega)]

theorem utf8Run_four {b c1 c2 c3 : Nat} (bs : List Nat)
    (hb : 240 ≤ b ∧ b < 248) (hc1 : 128 ≤ c1 ∧ c1 < 192) (hc2 : 128 ≤ c2 ∧ c2 < 192)
    (hc3 : 128 ≤ c3 ∧ c3 < 192)
    (hn : 65536 ≤ (((b - 240) * 64 + (c1 - 128)) * 64 + (c2 - 128)) * 64 + (c3 - 128))
    (hm : (((b - 240) * 64 + (c1 - 128)) * 64 + (c2 - 128)) * 64 + (c3 - 128) < 1114112) :
    utf8Run none (b :: c1 :: c2 :: c3 :: bs)
      = (utf8Run none bs).map
          (fun cs =>
            Char.ofNat ((((b - 240) * 64 + (c1 - 128)) * 64 + (c2 - 128)) * 64 + (c3 - 128))
              :: cs) := by
  simp only [utf8Run]
  rw [if_neg (by omega), if_neg (by omega), if_neg (by omega), if_neg (by omega),
    if_pos (by omega), if_pos hc1, if_neg (by omega), if_pos hc2, if_neg (by omega),
    if_pos hc3, if_true, if_pos (by omega)]

theorem utf8DecodeChars_encodeChar_cons (c : Char) (rest : List Nat) :
    utf8Run none (utf8EncodeChar c.toNat ++ rest)
      = (utf8Run none rest).map (fun cs => c :: cs) := by
  have hv : c.toNat < 55296 ∨ (57343 < c.toNat ∧ c.toNat < 1114112) := c.valid
  have hofn : Char.ofNat c.toNat = c := char_ofNat_toNat c
  by_cases h1 : c.toNat < 128
  · have he : utf8EncodeChar c.toNat = [c.toNat] := by
      unfold utf8EncodeChar; rw [if_pos h1]
    rw [he, List.cons_append, List.nil_append, utf8Run_one rest h1, hofn]
  · by_cases h2 : c.toNat < 2048
    · have he : utf8EncodeChar c.toNat = [192 + c.toNat / 64, 128 + c.toNat % 64] := by
        unfold utf8EncodeChar; rw [if_neg h1, if_pos h2]
      rw [he, List.cons_append, List.cons_append, List.nil_append,
        utf8Run_two rest (by omega) (by omega) (by omega)]
      have harg : (192 + c.toNat / 64 - 192) * 64 + (128 + c.toNat % 64 - 128) = c.toNat := by
        omega
      rw [harg, hofn]
    · by_cases h3 : c.toNat < 65536
      · have he : utf8EncodeChar c.toNat
            = [224 + c.toNat / 4096, 128 + c.toNat / 64 % 64, 128 + c.toNat % 64] := by
          unfold utf8EncodeChar; rw [if_neg h1, if_neg h2, if_pos h3]
        rw [he, List.cons_append, List.cons_append, List.cons_append, List.nil_append,
          utf8Run_three rest (by omega) (by omega) (by omega) (by omega) (by omega)]
        have harg : ((224 + c.toNat / 4096 - 224) * 64 + (128 + c.toNat / 64 % 64 - 128)) * 64 +
            (128 + c.toNat % 64 - 128) = c.toNat := by
          omega
        rw [harg, hofn]
      · have h4 : c.toNat < 1114112 := by omega
        have he : utf8EncodeChar c.toNat
            = [240 + c.toNat / 262144, 128 + c.toNat / 4096 % 64,
                128 + c.toNat / 64 % 64, 128 + c.toNat % 64] := by
          unfold utf8EncodeChar; rw [if_neg h1, if_neg h2, if_neg h3]
        rw [he, List.cons_append, List.cons_append, List.cons_append, List.cons_append,
          List.nil_append,
          utf8Run_four rest (by omega) (by omega) (by omega) (by omega) (by omega)
            (by omega)]
        have harg : (((240 + c.toNat / 262144 - 240) * 64 +
            (128 + c.toNat / 4096 % 64 - 128)) * 64 +
            (128 + c.toNat / 64 % 64 - 128)) * 64 + (128 + c.toNat % 64 - 128) = c.toNat := by
          omega
        rw [harg, hofn]

theorem utf8DecodeChars_encode (l : List Char) :
    utf8DecodeChars (l.flatMap (fun c => utf8EncodeChar c.toNat)) = some l := by
  induction l with
  | nil => rfl
  | cons c cs ih =>
    rw [utf8DecodeChars] at ih ⊢
    rw [List.flatMap_cons, utf8DecodeChars_encodeChar_cons, ih]
    rfl

/-- Decoding inverts encoding: the UTF-8 round trip of the model. -/
theorem utf8Decode_encode (s : String) : utf8Decode (utf8Encode s) = some s := by
  cases s with
  | mk data =>
    rw [utf8Decode, utf8Encode, utf8DecodeChars_encode]
    rfl

theorem streamXor_involutive (key nonce : Bytes) (i : Nat) (pt : Bytes) :
    streamXor key nonce i (streamXor key nonce i pt) = pt := by
  induction pt generalizing i with
  | nil => rfl
  | cons b bs ih =>
    simp only [streamXor, Nat.xor_assoc, Nat.xor_self, Nat.xor_zero, ih]

theorem streamXor_length (key nonce : Bytes) (i : Nat) (pt : Bytes) :
    (streamXor key nonce i pt).length = pt.length := by
  induction pt generalizing i with
  | nil => rfl
  | cons b bs ih => simp only [streamXor, List.length_cons, ih]

theorem nonceOf_length (r : Nat) : (nonceOf r).length = 24 := by
  simp [nonceOf]

theorem polyTag_length (key nonce ct : Bytes) : (polyTag key nonce ct).length = 16 := by
  simp [polyTag]

/-- Opening a sealed box with the sealing key returns the plaintext. -/
theorem secretboxOpen_seal (key nonce pt : Bytes)
    (hk : key.length = 32) (hn : nonce.length = 24) :
    secretboxOpen key (secretboxSeal key nonce pt) = some pt := by
  unfold secretboxOpen secretboxSeal
  rw [if_neg (by omega)]
  rw [List.append_assoc]
  rw [if_neg (by
    simp only [List.length_append, polyTag_length, streamXor_length, hn]
    omega)]
  rw [List.take_left' hn, List.drop_left' hn,
    List.take_left' (polyTag_length key nonce _), List.drop_left' (polyTag_length key nonce _)]
  rw [if_pos rfl, streamXor_involutive]

theorem derive_room_key_length (emojis : List String) (pin : String) (t : Option ℚ) :
    (derive_room_key emojis pin t).length = 32 := by
  simp [derive_room_key, hash_secret_raw]

/-- C1: for every plaintext message `m` and every key `K` derived by
`derive_room_key` from `(emojis, pin, anchor)`, decrypting the encryption of
`m` under `K` returns `m`:
`decrypt_message (encrypt_message m K) K = some m` (and no exception). -/
theorem C1_encrypt_decrypt_roundtrip (m : String) (emojis : List String) (pin : String)
    (anchor : Option ℚ) (r : Nat) :
    decrypt_message (encrypt_message m (derive_room_key emojis pin anchor) r)
      (derive_room_key emojis pin anchor) = .ok (some m) := by
  have h1 := secretboxOpen_seal (derive_room_key emojis pin anchor) (nonceOf r)
    (utf8Encode m) (derive_room_key_length emojis pin anchor) (nonceOf_length r)
  simp only [decrypt_message, encrypt_message, h1, utf8Decode_encode]

/-- C5 is refuted at anchor `0`: `derive_room_key` appends the anchor to the
salt input only when the timestamp is truthy, so the zero anchor does not
contribute to the salt, and the salt differs from the specification's formula
at this concrete input. -/
theorem C5_counterexample :
    derive_salt ["🔥", "🌙", "⭐", "🎯", "🌊", "💎"] (some 0)
      ≠ spec_salt ["🔥", "🌙", "⭐", "🎯", "🌊", "💎"] 0 := by
  with_unfolding_all decide

/-- C5 (amended): the anchor contributes to the salt exactly when it is truthy
(non-`None` and nonzero). For a nonzero anchor the salt is exactly the
specification's `"sos-chat-v1:" ∥ emojis ∥ ":" ∥ anchor` formula; anchor `0`
is treated like an absent anchor, whose salt input stops after the emojis. -/
theorem C5_derive_salt_amended (emojis : List String) (q : ℚ) (hq : q ≠ 0) :
    derive_salt emojis (some q) = spec_salt emojis (pyInt q)
    ∧ derive_salt emojis (some 0) = derive_salt emojis none
    ∧ derive_salt emojis none
        = (sha256 (utf8Encode ("sos-chat-v1:" ++ String.join emojis))).take 16 := by
  refine ⟨?_, ?_, ?_⟩
  · simp [derive_salt, truthyQ, hq, spec_salt]
  · simp [derive_salt, truthyQ]
  · simp [derive_salt, truthyQ]

/-- Witness for C5 (amended) at the concrete anchor `7`. -/
theorem C5_witness :
    ((7 : ℚ) ≠ 0)
    ∧ derive_salt ["🔥"] (some 7) = spec_salt ["🔥"] (pyInt 7) :=
  ⟨by with_unfolding_all decide,
    (C5_derive_salt_amended ["🔥"] 7 (by with_unfolding_all decide)).1⟩

/-- C10 is refuted: a well-formed SecretBox blob whose authenticated plaintext
(the single byte `0xFF`) is not valid UTF-8 makes `decrypt_message` raise
`UnicodeDecodeError` instead of returning a value, so the function is not
total on all byte strings even for a 32-byte key. -/
theorem C10_counterexample :
    decrypt_message (secretboxSeal (List.replicate 32 0) (nonceOf 0) [255])
      (List.replicate 32 0) = .error .unicodeDecodeError := by
  rfl

/-- C10 (amended): for every 32-byte key and byte string, `decrypt_message`
returns `none` whenever the box fails to authenticate — an authentication-tag
failure never raises — and returns the decoded plaintext when authentication
succeeds on valid UTF-8; the only escaping exception is `UnicodeDecodeError`,
raised exactly when authentication succeeds on plaintext that is not valid
UTF-8. -/
theorem C10_decrypt_message_amended (key encrypted : Bytes) (hk : key.length = 32) :
    (secretboxOpen key encrypted = none → decrypt_message encrypted key = .ok none)
    ∧ (∀ pt s, secretboxOpen key encrypted = some pt → utf8Decode pt = some s →
        decrypt_message encrypted key = .ok (some s))
    ∧ (∀ pt, secretboxOpen key encrypted = some pt → utf8Decode pt = none →
        decrypt_message encrypted key = .error .unicodeDecodeError) := by
  refine ⟨fun h => ?_, fun pt s h hd => ?_, fun pt h hd => ?_⟩
  · simp only [decrypt_message, h]
  · simp only [decrypt_message, h, hd]
  · simp only [decrypt_message, h, hd]

/-- Witness for C10 (amended): the empty byte string under an all-zero 32-byte
key fails authentication and decrypts to `none`. -/
theorem C10_witness :
    (List.replicate 32 0 : Bytes).length = 32
    ∧ (secretboxOpen (List.replicate 32 0) [] = none →
        decrypt_message [] (List.replicate 32 0) = .ok none) :=
  ⟨by decide, (C10_decrypt_message_amended (List.replicate 32 0) [] (by decide)).1⟩

/-- Python `int()` truncation agrees with the floor on nonnegative rationals. -/
theorem pyInt_eq_floor (q : ℚ) (h : 0 ≤ q) : pyInt q = ⌊q⌋ := by
  rw [pyInt, Rat.floor_def]
  exact Int.tdiv_eq_ediv (Rat.num_nonneg.mpr h) (Int.ofNat_nonneg _)

theorem RateLimiter.check_entry_allowed_iff (c : Nat) (t0 now : ℚ)
    (hcool : now - t0 ≤ (RATE_LIMIT_COOLDOWN : ℚ)) :
    (RateLimiter.check (some ⟨c, t0⟩) now).1 = true
      ↔ now - t0 ≥ (RATE_LIMIT_DELAYS.getD (min c 5) 0 : ℚ) := by
  have h5 : RATE_LIMIT_DELAYS.length - 1 = 5 := by rfl
  rw [RateLimiter.check, if_neg (by exact not_lt.mpr hcool), h5]
  by_cases hd : now - t0 ≥ (RATE_LIMIT_DELAYS.getD (min c 5) 0 : ℚ)
  · rw [if_pos hd]
    simpa using hd
  · rw [if_neg hd]
    simpa using hd

theorem RateLimiter.check_entry_state (c : Nat) (t0 now : ℚ)
    (hcool : now - t0 ≤ (RATE_LIMIT_COOLDOWN : ℚ))
    (hall : (RateLimiter.check (some ⟨c, t0⟩) now).1 = true) :
    (RateLimiter.check (some ⟨c, t0⟩) now).2.2 = some ⟨c + 1, now⟩ := by
  have hd := (RateLimiter.check_entry_allowed_iff c t0 now hcool).mp hall
  have h5 : RATE_LIMIT_DELAYS.length - 1 = 5 := by rfl
  rw [RateLimiter.check, if_neg (by exact not_lt.mpr hcool), h5, if_pos hd]

/-- Per-attempt characterization of a run started from an existing entry
`⟨c, t0⟩`: when every earlier attempt was permitted and consecutive instants
are non-decreasing with gaps at most the cooldown, attempt `k` is permitted
iff its gap from the previous instant reaches the delay table at index
`min (c + k) 5`. -/
theorem RateLimiter.run_flag_iff (ts : List ℚ) (c : Nat) (t0 : ℚ) (k : Nat)
    (hk : k < ts.length)
    (hchain : List.Chain (fun a b => a ≤ b ∧ b - a ≤ (1800 : ℚ)) t0 ts)
    (hprev : ∀ j, j < k → (RateLimiter.run (some ⟨c, t0⟩) ts).2.getD j false = true) :
    (RateLimiter.run (some ⟨c, t0⟩) ts).2.getD k false = true
      ↔ ts.getD k 0 - (if k = 0 then t0 else ts.getD (k - 1) 0)
          ≥ (RATE_LIMIT_DELAYS.getD (min (c + k) 5) 0 : ℚ) := by
  induction ts generalizing c t0 k with
  | nil => exact absurd hk (by simp)
  | cons t ts ih =>
    rw [List.chain_cons] at hchain
    obtain ⟨⟨hle, hgap⟩, hchain'⟩ := hchain
    have hcool : t - t0 ≤ (RATE_LIMIT_COOLDOWN : ℚ) := by
      have : (RATE_LIMIT_COOLDOWN : ℚ) = 1800 := by norm_num [RATE_LIMIT_COOLDOWN]
      rw [this]; exact hgap
    have hflag0 : (RateLimiter.run (some ⟨c, t0⟩) (t :: ts)).2.getD 0 false
        = (RateLimiter.check (some ⟨c, t0⟩) t).1 := rfl
    cases k with
    | zero =>
      rw [hflag0]
      simpa using RateLimiter.check_entry_allowed_iff c t0 t hcool
    | succ j =>
      have h0 : (RateLimiter.check (some ⟨c, t0⟩) t).1 = true := by
        have := hprev 0 (Nat.succ_pos j)
        rwa [hflag0] at this
      have hstate := RateLimiter.check_entry_state c t0 t hcool h0
      have htail : ∀ i, (RateLimiter.run (some ⟨c, t0⟩) (t :: ts)).2.getD (i + 1) false
          = (RateLimiter.run (some ⟨c + 1, t⟩) ts).2.getD i false := by
        intro i
        show ((RateLimiter.check (some ⟨c, t0⟩) t).1 ::
          (RateLimiter.run (RateLimiter.check (some ⟨c, t0⟩) t).2.2 ts).2).getD (i + 1) false = _
        rw [hstate]
        rfl
      rw [htail j]
      have hk' : j < ts.length := by simpa using hk
      have hprev' : ∀ i, i < j →
          (RateLimiter.run (some ⟨c + 1, t⟩) ts).2.getD i false = true := by
        intro i hi
        rw [← htail i]
        exact hprev (i + 1) (by omega)
      have := ih (c + 1) t j hk' hchain' hprev'
      rw [this]
      have harith : c + 1 + j = c + (j + 1) := by omega
      rcases Nat.eq_zero_or_pos j with hj | hj
      · subst hj
        simp [harith]
      · have h1 : (if j = 0 then t else ts.getD (j - 1) 0) = ts.getD (j - 1) 0 := by
          rw [if_neg (by omega)]
        have h2 : (t :: ts).getD (j + 1 - 1) 0 = ts.getD (j - 1) 0 := by
          have : j + 1 - 1 = (j - 1) + 1 := by omega
          rw [this]
          rfl
        rw [h1, h2, harith]
        simp

/-- C3 is refuted: two create attempts from one IP five seconds apart are both
permitted by the code, although the claim (`k ≤ 1` or gap `>`
`table[min(k−1, 5)] = 10`) predicts that the second must be denied. -/
theorem C3_counterexample :
    (RateLimiter.run none [0, 5]).2 = [true, true]
    ∧ ¬ ((2 : Nat) ≤ 1 ∨ (5 : ℚ) - 0 > (RATE_LIMIT_DELAYS.getD (min 1 5) 0 : ℚ)) := by
  with_unfolding_all decide

/-- C3 (amended): with the counter created at 0 (not 1) on a first attempt,
attempt `k` (0-based) of a run whose earlier attempts were all permitted, with
non-decreasing instants and gaps at most 1800 s, is permitted iff `k < 2` or
the gap since the previous attempt is at least (not strictly greater than)
`table[min(k−1, 5)]`; moreover a first attempt and a post-cooldown attempt
reset the counter to 0 and are always permitted, and after the join-triggered
reset the next attempt is always permitted. -/
theorem C3_rate_limiter_amended (ts : List ℚ) (k : Nat) (hk : k < ts.length)
    (hchain : List.Chain' (fun a b => a ≤ b ∧ b - a ≤ (1800 : ℚ)) ts)
    (hprev : ∀ j, j < k → (RateLimiter.run none ts).2.getD j false = true) :
    ((RateLimiter.run none ts).2.getD k false = true
      ↔ (k < 2 ∨ ts.getD k 0 - ts.getD (k - 1) 0
          ≥ (RATE_LIMIT_DELAYS.getD (min (k - 1) 5) 0 : ℚ)))
    ∧ (∀ now, RateLimiter.check none now = (true, 0, some ⟨0, now⟩))
    ∧ (∀ entry now, now - entry.last_attempt > (RATE_LIMIT_COOLDOWN : ℚ) →
        RateLimiter.check (some entry) now = (true, 0, some ⟨0, now⟩))
    ∧ (∀ slot now, (RateLimiter.check (RateLimiter.reset slot) now).1 = true) := by
  refine ⟨?_, fun now => rfl, fun entry now h => ?_, fun slot now => rfl⟩
  · cases ts with
    | nil => exact absurd hk (by simp)
    | cons t ts =>
      have hchain0 : List.Chain (fun a b => a ≤ b ∧ b - a ≤ (1800 : ℚ)) t ts := hchain
      have hflags : (RateLimiter.run none (t :: ts)).2
          = true :: (RateLimiter.run (some ⟨0, t⟩) ts).2 := rfl
      cases k with
      | zero =>
        rw [hflags]
        simp
      | succ j =>
        have hk' : j < ts.length := by simpa using hk
        have hprev' : ∀ i, i < j →
            (RateLimiter.run (some ⟨0, t⟩) ts).2.getD i false = true := by
          intro i hi
          have := hprev (i + 1) (by omega)
          rwa [hflags] at this
        have hiff := RateLimiter.run_flag_iff ts 0 t j hk' hchain0 hprev'
        rw [hflags]
        show (RateLimiter.run (some ⟨0, t⟩) ts).2.getD j false = true ↔ _
        rw [hiff]
        rcases Nat.eq_zero_or_pos j with hj | hj
        · subst hj
          constructor
          · intro _
            exact Or.inl (by omega)
          · intro _
            rcases ts with _ | ⟨t1, ts'⟩
            · exact absurd hk' (by simp)
            · rw [List.chain_cons] at hchain0
              have hle := hchain0.1.1
              have hz : (RATE_LIMIT_DELAYS[(0 : Nat)]?.getD 0 : Nat) = 0 := rfl
              simpa [hz] using sub_nonneg.mpr hle
        · have h1 : (if j = 0 then t else ts.getD (j - 1) 0) = ts.getD (j - 1) 0 := by
            rw [if_neg (by omega)]
          have h2 : (t :: ts).getD (j + 1 - 1) 0 = ts.getD (j - 1) 0 := by
            have : j + 1 - 1 = (j - 1) + 1 := by omega
            rw [this]
            rfl
          have h3 : (t :: ts).getD (j + 1) 0 = ts.getD j 0 := rfl
          rw [h1, h2, h3]
          constructor
          · intro hgap
            exact Or.inr (by simpa using hgap)
          · intro hor
            rcases hor with hlt | hgap
            · omega
            · simpa using hgap
  · rw [RateLimiter.check, if_pos h]

/-- Witness for C3 (amended) at attempts `[0, 5]`, `k = 1`: the second attempt
is permitted, matching the amended condition `k < 2`. -/
theorem C3_witness :
    (1 < ([0, 5] : List ℚ).length)
    ∧ List.Chain' (fun a b => a ≤ b ∧ b - a ≤ (1800 : ℚ)) [0, 5]
    ∧ (∀ j, j < 1 → (RateLimiter.run none [0, 5]).2.getD j false = true)
    ∧ ((RateLimiter.run none [0, 5]).2.getD 1 false = true
        ↔ (1 < 2 ∨ ([0, 5] : List ℚ).getD 1 0 - ([0, 5] : List ℚ).getD 0 0
            ≥ (RATE_LIMIT_DELAYS.getD (min 0 5) 0 : ℚ))) :=
  ⟨by decide,
    List.Chain.cons ⟨by with_unfolding_all decide, by with_unfolding_all decide⟩ List.Chain.nil,
    by with_unfolding_all decide,
    (C3_rate_limiter_amended [0, 5] 1 (by decide)
      (List.Chain.cons ⟨by with_unfolding_all decide, by with_unfolding_all decide⟩
        List.Chain.nil)
      (by with_unfolding_all decide)).1⟩

/-- C9 is refuted: with counter 1 (required delay 10) and an elapsed time of
half a second, the code returns `retry_after = int(9.5) = 9`, while the claim
(delay − elapsed rounded up) predicts 10. -/
theorem C9_counterexample :
    (RateLimiter.check (some ⟨1, 0⟩) (1 / 2 : ℚ)).2.1 = 9
    ∧ ⌈(RATE_LIMIT_DELAYS.getD (min 1 5) 0 : ℚ) - ((1 / 2 : ℚ) - 0)⌉ = 10 := by
  constructor
  · with_unfolding_all decide
  · with_unfolding_all decide

/-- C9 (amended): on a denied create attempt the returned `retry_after` is the
required delay minus the elapsed time rounded *down* (Python `int()`
truncation of a positive value), not up. -/
theorem C9_retry_after_amended (c : Nat) (last now : ℚ)
    (hcool : now - last ≤ (RATE_LIMIT_COOLDOWN : ℚ))
    (hdeny : now - last < (RATE_LIMIT_DELAYS.getD (min c 5) 0 : ℚ)) :
    (RateLimiter.check (some ⟨c, last⟩) now).1 = false
    ∧ (RateLimiter.check (some ⟨c, last⟩) now).2.1
        = ⌊(RATE_LIMIT_DELAYS.getD (min c 5) 0 : ℚ) - (now - last)⌋ := by
  have h5 : RATE_LIMIT_DELAYS.length - 1 = 5 := by rfl
  have hne : ¬ (now - last ≥ (RATE_LIMIT_DELAYS.getD (min c 5) 0 : ℚ)) := not_le.mpr hdeny
  constructor
  · rw [RateLimiter.check, if_neg (by exact not_lt.mpr hcool), h5, if_neg hne]
  · rw [RateLimiter.check, if_neg (by exact not_lt.mpr hcool), h5, if_neg hne]
    exact pyInt_eq_floor _ (by linarith)

/-- Witness for C9 (amended) at counter 1, elapsed one half second:
`retry_after = ⌊10 − 1/2⌋ = 9`. -/
theorem C9_witness :
    ((1 / 2 : ℚ) - 0 ≤ (RATE_LIMIT_COOLDOWN : ℚ))
    ∧ ((1 / 2 : ℚ) - 0 < (RATE_LIMIT_DELAYS.getD (min 1 5) 0 : ℚ))
    ∧ ((RateLimiter.check (some ⟨1, 0⟩) (1 / 2 : ℚ)).1 = false
        ∧ (RateLimiter.check (some ⟨1, 0⟩) (1 / 2 : ℚ)).2.1
            = ⌊(RATE_LIMIT_DELAYS.getD (min 1 5) 0 : ℚ) - ((1 / 2 : ℚ) - 0)⌋) :=
  ⟨by with_unfolding_all decide, by with_unfolding_all decide,
    C9_retry_after_amended 1 0 (1 / 2) (by with_unfolding_all decide)
      (by with_unfolding_all decide)⟩

/-- C4 is refuted: a `POST /room` carrying a sixteen-character but non-hex,
non-lowercase `room_hash` and an unrecognized `mode` is accepted — the handler
creates the room instead of responding 400. -/
theorem C4_counterexample :
    (handle_create_room none 0 (some ⟨some "ZZZZZZZZZZZZZZZZ", some "bogus"⟩) false "m1").1
      = .created
          ⟨"ZZZZZZZZZZZZZZZZ", "fixed", 0, 0 + (ROOM_TTL : ℚ), [("m1", "creator")], []⟩
          "m1" := by
  rfl

/-- C4 (amended): past the rate-limit and JSON checks, `POST /room` responds
400 `invalid_room_hash` iff the supplied `room_hash` is missing, empty, or not
of length exactly 16 — hexness and case are not checked — and the supplied
`mode` is ignored (the handler hard-codes `"fixed"`): no request is ever
rejected with `invalid_mode`, and the outcome does not depend on the `mode`
field at all. -/
theorem C4_create_validation_amended (slot : Option RLEntry) (now : ℚ) (body : CreateBody)
    (existing : Bool) (mid : String)
    (hallow : (RateLimiter.check slot now).1 = true) :
    (body.room_hash = none →
      (handle_create_room slot now (some body) existing mid).1 = .invalidRoomHash)
    ∧ (∀ h, body.room_hash = some h →
        ((handle_create_room slot now (some body) existing mid).1 = .invalidRoomHash
          ↔ h.length ≠ 16))
    ∧ (handle_create_room slot now (some body) existing mid).1 ≠ .invalidMode
    ∧ (∀ m, handle_create_room slot now (some ⟨body.room_hash, m⟩) existing mid
        = handle_create_room slot now (some body) existing mid) := by
  have hnotfalse : ¬ ((RateLimiter.check slot now).1 = false) := by
    rw [hallow]; simp
  refine ⟨fun hrh => ?_, fun h hrh => ?_, ?_, fun m => ?_⟩
  · rw [handle_create_room]
    rw [if_neg hnotfalse, hrh]
    rw [if_pos (by simp)]
  · rw [handle_create_room]
    rw [if_neg hnotfalse, hrh]
    by_cases hl : h.length = 16
    · have hne : h ≠ "" := by
        intro he
        rw [he] at hl
        simp at hl
      rw [if_neg (by simp [hne, hl])]
      rw [if_neg (by simp)]
      by_cases hex : existing
      · rw [if_pos hex]
        simp [hl]
      · rw [if_neg hex]
        simp [hl]
    · rw [if_pos (by simp [hl])]
      simp [hl]
  · rw [handle_create_room]
    rw [if_neg hnotfalse]
    by_cases hrh : (body.room_hash.getD "" = "" ∨ (body.room_hash.getD "").length ≠ 16)
    · rw [if_pos hrh]
      simp
    · rw [if_neg hrh]
      rw [if_neg (by simp)]
      by_cases hex : existing
      · rw [if_pos hex]; simp
      · rw [if_neg hex]; simp
  · cases body
    rfl

/-- Witness for C4 (amended): a two-character `room_hash` is rejected as
`invalid_room_hash`. -/
theorem C4_witness :
    ((RateLimiter.check none 0).1 = true)
    ∧ (∀ h, (⟨some "ZZ", some "bogus"⟩ : CreateBody).room_hash = some h →
        ((handle_create_room none 0 (some ⟨some "ZZ", some "bogus"⟩) false "m").1
            = .invalidRoomHash
          ↔ h.length ≠ 16)) :=
  ⟨rfl, (C4_create_validation_amended none 0 ⟨some "ZZ", some "bogus"⟩ false "m" rfl).2.1⟩

theorem lastN_length (n : Nat) (l : List α) : (lastN n l).length = min n l.length := by
  simp only [lastN, List.length_drop]
  omega

theorem lastN_of_le {n : Nat} {l : List α} (h : l.length ≤ n) : lastN n l = l := by
  rw [lastN, Nat.sub_eq_zero_of_le h, List.drop_zero]

theorem lastN_lastN_append (n : Nat) (l l2 : List α) :
    lastN n (lastN n l ++ l2) = lastN n (l ++ l2) := by
  unfold lastN
  rw [List.drop_append_eq_append_drop, List.drop_drop, List.drop_append_eq_append_drop]
  congr 1
  · congr 1
    simp only [List.length_append, List.length_drop]
    omega
  · congr 1
    simp only [List.length_append, List.length_drop]
    omega

theorem handle_send_accepted (room : RoomData) (data : SendBody) (mid : String) (now : ℚ)
    (h : data.content.getD "" ≠ "") :
    (handle_send_message room (some data) mid now).2
      = { room with
          messages :=
            lastN MAX_MESSAGES (room.messages ++ [sentMessage room.members (data, mid, now)]) } := by
  have hmsg : sentMessage room.members (data, mid, now)
      = (⟨mid, sentSender room.members data, data.content.getD "", now⟩ : MessageData) := rfl
  simp only [handle_send_message, hmsg]
  rw [if_neg h]
  by_cases hlen :
      (room.messages
        ++ [(⟨mid, sentSender room.members data, data.content.getD "", now⟩ : MessageData)]
        ).length > MAX_MESSAGES
  · rw [if_pos hlen]
    rfl
  · rw [if_neg hlen, lastN_of_le (by omega)]

theorem runSends_messages (room : RoomData) (inputs : List (SendBody × String × ℚ))
    (hlen : room.messages.length ≤ MAX_MESSAGES)
    (hacc : ∀ i ∈ inputs, i.1.content.getD "" ≠ "") :
    (runSends room inputs).messages
        = lastN MAX_MESSAGES (room.messages ++ inputs.map (sentMessage room.members))
    ∧ (runSends room inputs).members = room.members := by
  induction inputs generalizing room with
  | nil =>
    refine ⟨?_, rfl⟩
    simp only [runSends, List.map_nil, List.append_nil]
    rw [lastN_of_le hlen]
  | cons i rest ih =>
    have hacc0 : i.1.content.getD "" ≠ "" := hacc i (List.mem_cons_self i rest)
    have hstep := handle_send_accepted room i.1 i.2.1 i.2.2 hacc0
    have hi : (i.1, i.2.1, i.2.2) = i := rfl
    rw [hi] at hstep
    simp only [runSends]
    rw [hstep]
    have hlen' :
        (lastN MAX_MESSAGES (room.messages ++ [sentMessage room.members i])).length
          ≤ MAX_MESSAGES := by
      rw [lastN_length]; omega
    have hrest := ih
      { room with messages := lastN MAX_MESSAGES (room.messages ++ [sentMessage room.members i]) }
      hlen' (fun j hj => hacc j (List.mem_cons_of_mem i hj))
    refine ⟨?_, hrest.2⟩
    rw [hrest.1]
    show lastN MAX_MESSAGES
        (lastN MAX_MESSAGES (room.messages ++ [sentMessage room.members i])
          ++ rest.map (sentMessage room.members)) = _
    rw [lastN_lastN_append, List.append_assoc, List.singleton_append, ← List.map_cons]

/-- C6: starting from an empty log, every prefix of a sequence of accepted
sends leaves at most `MAX_MESSAGES = 500` stored messages, and once more than
500 sends were accepted, the stored log is exactly the 500 most recent
messages in send order (the oldest having been discarded on each overflow). -/
theorem C6_bounded_log (room0 : RoomData) (inputs : List (SendBody × String × ℚ))
    (h0 : room0.messages = [])
    (hacc : ∀ i ∈ inputs, i.1.content.getD "" ≠ "") :
    (∀ n, (runSends room0 (inputs.take n)).messages.length ≤ MAX_MESSAGES)
    ∧ (MAX_MESSAGES < inputs.length →
        (runSends room0 inputs).messages
            = lastN MAX_MESSAGES (inputs.map (sentMessage room0.members))
          ∧ (runSends room0 inputs).messages.length = MAX_MESSAGES) := by
  have hlen0 : room0.messages.length ≤ MAX_MESSAGES := by rw [h0]; simp
  constructor
  · intro n
    have hacc' : ∀ i ∈ inputs.take n, i.1.content.getD "" ≠ "" :=
      fun i hi => hacc i (List.mem_of_mem_take hi)
    rw [(runSends_messages room0 (inputs.take n) hlen0 hacc').1, lastN_length]
    omega
  · intro hN
    have hmain := (runSends_messages room0 inputs hlen0 hacc).1
    rw [h0, List.nil_append] at hmain
    refine ⟨hmain, ?_⟩
    rw [hmain, lastN_length, List.length_map]
    omega

/-- Witness for C6: 501 accepted sends against a fresh room leave at most 500
stored messages at every prefix. -/
theorem C6_witness :
    ((⟨"h", "fixed", 0, 3600, [], []⟩ : RoomData).messages = [])
    ∧ (∀ i ∈ List.replicate 501 ((⟨some "x", none, none⟩ : SendBody), "i", (0 : ℚ)),
        i.1.content.getD "" ≠ "")
    ∧ (MAX_MESSAGES
        < (List.replicate 501 ((⟨some "x", none, none⟩ : SendBody), "i", (0 : ℚ))).length)
    ∧ (∀ n, (runSends ⟨"h", "fixed", 0, 3600, [], []⟩
        ((List.replicate 501 ((⟨some "x", none, none⟩ : SendBody), "i", (0 : ℚ))).take n)
          ).messages.length ≤ MAX_MESSAGES) :=
  ⟨rfl, fun i hi => by rw [List.eq_of_mem_replicate hi]; decide,
    by rw [List.length_replicate]; decide,
    (C6_bounded_log ⟨"h", "fixed", 0, 3600, [], []⟩
      (List.replicate 501 ((⟨some "x", none, none⟩ : SendBody), "i", (0 : ℚ)))
      rfl (fun i hi => by rw [List.eq_of_mem_replicate hi]; decide)).1⟩

/-- C7: for a live room, a poll with threshold `T` returns exactly the stored
messages with `timestamp > T`, in stored (append) order, together with the
member list and `expires_at`; and since server-assigned timestamps are
positive, `since = 0` returns the full history. -/
theorem C7_poll_filter (room : RoomData) (T : ℚ)
    (hpos : ∀ m ∈ room.messages, 0 < m.timestamp) :
    List.Sublist (handle_poll room T).messages room.messages
    ∧ (∀ m, m ∈ (handle_poll room T).messages ↔ m ∈ room.messages ∧ T < m.timestamp)
    ∧ (handle_poll room T).members = room.members.map Prod.snd
    ∧ (handle_poll room T).expires_at = room.expires_at
    ∧ (handle_poll room 0).messages = room.messages := by
  refine ⟨List.filter_sublist _, fun m => ?_, rfl, rfl, ?_⟩
  · simp [handle_poll, List.mem_filter]
  · show room.messages.filter (fun m => decide ((0 : ℚ) < m.timestamp)) = room.messages
    exact List.filter_eq_self.mpr (fun m hm => by simpa using hpos m hm)

/-- Witness for C7 on a one-message room polled with `since = 2`. -/
theorem C7_witness :
    (∀ m ∈ ([⟨"i1", "a", "c", 5⟩] : List MessageData), 0 < m.timestamp)
    ∧ (List.Sublist
        (handle_poll ⟨"h", "fixed", 0, 3600, [("m", "creator")], [⟨"i1", "a", "c", 5⟩]⟩
          2).messages
        (⟨"h", "fixed", 0, 3600, [("m", "creator")], [⟨"i1", "a", "c", 5⟩]⟩ : RoomData).messages
      ∧ (∀ m, m ∈ (handle_poll ⟨"h", "fixed", 0, 3600, [("m", "creator")],
            [⟨"i1", "a", "c", 5⟩]⟩ 2).messages
          ↔ m ∈ (⟨"h", "fixed", 0, 3600, [("m", "creator")],
              [⟨"i1", "a", "c", 5⟩]⟩ : RoomData).messages ∧ 2 < m.timestamp)
      ∧ (handle_poll ⟨"h", "fixed", 0, 3600, [("m", "creator")], [⟨"i1", "a", "c", 5⟩]⟩
            2).members
          = (⟨"h", "fixed", 0, 3600, [("m", "creator")],
              [⟨"i1", "a", "c", 5⟩]⟩ : RoomData).members.map Prod.snd
      ∧ (handle_poll ⟨"h", "fixed", 0, 3600, [("m", "creator")], [⟨"i1", "a", "c", 5⟩]⟩
            2).expires_at
          = (⟨"h", "fixed", 0, 3600, [("m", "creator")],
              [⟨"i1", "a", "c", 5⟩]⟩ : RoomData).expires_at
      ∧ (handle_poll ⟨"h", "fixed", 0, 3600, [("m", "creator")], [⟨"i1", "a", "c", 5⟩]⟩
            0).messages
          = (⟨"h", "fixed", 0, 3600, [("m", "creator")],
              [⟨"i1", "a", "c", 5⟩]⟩ : RoomData).messages) :=
  ⟨by with_unfolding_all decide,
    C7_poll_filter ⟨"h", "fixed", 0, 3600, [("m", "creator")], [⟨"i1", "a", "c", 5⟩]⟩ 2
      (by with_unfolding_all decide)⟩

/-- C8: a transport-level error (`httpx.RequestError`) on any of the four
requests — create, join, send, poll — moves the transport to `RECONNECTING`
while preserving the session fields `room_hash`, `member_id` and
`last_message_ts` exactly as they were. -/
theorem C8_transport_errors_preserve_session (st : TransportState)
    (rh content sender : String) (now : ℚ) (hclient : st.hasClient = true) :
    ((SOSTransport.create_room st rh true .reqError).1.state = ConnectionState.reconnecting
      ∧ (SOSTransport.create_room st rh true .reqError).1.room_hash = st.room_hash
      ∧ (SOSTransport.create_room st rh true .reqError).1.member_id = st.member_id
      ∧ (SOSTransport.create_room st rh true .reqError).1.last_message_ts
          = st.last_message_ts)
    ∧ ((SOSTransport.join_room st rh true .reqError).1.state = ConnectionState.reconnecting
      ∧ (SOSTransport.join_room st rh true .reqError).1.room_hash = st.room_hash
      ∧ (SOSTransport.join_room st rh true .reqError).1.member_id = st.member_id
      ∧ (SOSTransport.join_room st rh true .reqError).1.last_message_ts = st.last_message_ts)
    ∧ (st.room_hash = some rh → st.state = ConnectionState.connected →
        (SOSTransport.send_message st content sender now .reqError).1.state
            = ConnectionState.reconnecting
        ∧ (SOSTransport.send_message st content sender now .reqError).1.room_hash
            = st.room_hash
        ∧ (SOSTransport.send_message st content sender now .reqError).1.member_id
            = st.member_id
        ∧ (SOSTransport.send_message st content sender now .reqError).1.last_message_ts
            = st.last_message_ts)
    ∧ (st.room_hash = some rh →
        (SOSTransport.poll_messages st .reqError).1.state = ConnectionState.reconnecting
        ∧ (SOSTransport.poll_messages st .reqError).1.room_hash = st.room_hash
        ∧ (SOSTransport.poll_messages st .reqError).1.member_id = st.member_id
        ∧ (SOSTransport.poll_messages st .reqError).1.last_message_ts
            = st.last_message_ts) := by
  have hnc : ¬ (st.hasClient = false) := by rw [hclient]; simp
  refine ⟨?_, ?_, fun hrh hconn => ?_, fun hrh => ?_⟩
  · rw [SOSTransport.create_room, if_neg hnc]
    exact ⟨rfl, rfl, rfl, rfl⟩
  · rw [SOSTransport.join_room, if_neg hnc]
    exact ⟨rfl, rfl, rfl, rfl⟩
  · rw [SOSTransport.send_message, if_neg (by rw [hrh]; simp),
      if_neg (by rw [hclient, hconn]; simp)]
    exact ⟨rfl, rfl, rfl, rfl⟩
  · rw [SOSTransport.poll_messages, if_neg (by rw [hrh, hclient]; simp)]
    exact ⟨rfl, rfl, rfl, rfl⟩

/-- Witness for C8 on a concrete connected transport state. -/
theorem C8_witness :
    ((⟨ConnectionState.connected, true, some "r", some "m", 7, [], 1⟩
        : TransportState).hasClient = true)
    ∧ ((⟨ConnectionState.connected, true, some "r", some "m", 7, [], 1⟩
        : TransportState).room_hash = some "r" →
      (⟨ConnectionState.connected, true, some "r", some "m", 7, [], 1⟩
        : TransportState).state = ConnectionState.connected →
      (SOSTransport.send_message
          ⟨ConnectionState.connected, true, some "r", some "m", 7, [], 1⟩
          "c" "s" 9 .reqError).1.state = ConnectionState.reconnecting
      ∧ (SOSTransport.send_message
          ⟨ConnectionState.connected, true, some "r", some "m", 7, [], 1⟩
          "c" "s" 9 .reqError).1.room_hash
          = (⟨ConnectionState.connected, true, some "r", some "m", 7, [], 1⟩
              : TransportState).room_hash
      ∧ (SOSTransport.send_message
          ⟨ConnectionState.connected, true, some "r", some "m", 7, [], 1⟩
          "c" "s" 9 .reqError).1.member_id
          = (⟨ConnectionState.connected, true, some "r", some "m", 7, [], 1⟩
              : TransportState).member_id
      ∧ (SOSTransport.send_message
          ⟨ConnectionState.connected, true, some "r", some "m", 7, [], 1⟩
          "c" "s" 9 .reqError).1.last_message_ts
          = (⟨ConnectionState.connected, true, some "r", some "m", 7, [], 1⟩
              : TransportState).last_message_ts) :=
  ⟨rfl,
    (C8_transport_errors_preserve_session
      ⟨ConnectionState.connected, true, some "r", some "m", 7, [], 1⟩
      "r" "c" "s" 9 rfl).2.2.1⟩

/-- C2 is refuted: a message encrypted under the previous bucket's key
(anchor 15, received at `now = 30`, current anchor 30) is reported as a key
mismatch and dropped, even though decryption with the previous bucket's key
succeeds — the controller never attempts the previous (or next) bucket's
key. -/
theorem C2_counterexample :
    (on_message_received ⟨"🔥", ["🔥"], "rotating", 0, none⟩
        (some (get_encryption_key ⟨"🔥", ["🔥"], "rotating", 0, none⟩
          (get_current_pin ⟨"🔥", ["🔥"], "rotating", 0, none⟩ 30) 30))
        30 "alice"
        (encrypt_message "hi"
          (get_encryption_key ⟨"🔥", ["🔥"], "rotating", 0, none⟩
            (get_current_pin ⟨"🔥", ["🔥"], "rotating", 0, none⟩ 15) 15) 0)).1
      = ReceiveResult.keyMismatch
    ∧ decrypt_message
        (encrypt_message "hi"
          (get_encryption_key ⟨"🔥", ["🔥"], "rotating", 0, none⟩
            (get_current_pin ⟨"🔥", ["🔥"], "rotating", 0, none⟩ 15) 15) 0)
        (get_encryption_key ⟨"🔥", ["🔥"], "rotating", 0, none⟩
          (get_current_pin ⟨"🔥", ["🔥"], "rotating", 0, none⟩ 15) 15)
      = .ok (some "hi") := by
  constructor
  · with_unfolding_all decide
  · with_unfolding_all rfl

/-- C2 (amended): in rotating mode, the controller attempts decryption with
the cached key and, on failure, with the current bucket's key only — never
with the previous or next bucket's key. "Failure" is Python truthiness: a tag
failure (`None`) or an empty decrypted string. The message is reported as a
key mismatch exactly when both attempts fail; a cached-key success shows the
text and keeps the cache; a current-key success shows the text and caches the
current key. -/
theorem C2_receive_amended (creds : RoomCredentials) (key : Bytes) (now : ℚ)
    (sender : String) (content : Bytes)
    (hmode : creds.mode = "rotating") (hsender : sender ≠ "me") :
    ((on_message_received creds (some key) now sender content).1
        = ReceiveResult.keyMismatch
      ↔ ((decrypt_message content key = .ok none
            ∨ decrypt_message content key = .ok (some ""))
        ∧ (decrypt_message content
              (get_encryption_key creds (get_current_pin creds now) now) = .ok none
          ∨ decrypt_message content
              (get_encryption_key creds (get_current_pin creds now) now) = .ok (some ""))))
    ∧ (∀ s, decrypt_message content key = .ok (some s) → s ≠ "" →
        on_message_received creds (some key) now sender content
          = (ReceiveResult.shown s, some key))
    ∧ (∀ s, (decrypt_message content key = .ok none
          ∨ decrypt_message content key = .ok (some "")) →
        decrypt_message content
            (get_encryption_key creds (get_current_pin creds now) now) = .ok (some s) →
        s ≠ "" →
        on_message_received creds (some key) now sender content
          = (ReceiveResult.shown s,
              some (get_encryption_key creds (get_current_pin creds now) now))) := by
  refine ⟨?_, fun s h1 hs => ?_, fun s h1 h2 hs => ?_⟩
  · simp only [on_message_received, if_neg hsender]
    cases h1 : decrypt_message content key with
    | error e => simp [h1]
    | ok d1 =>
      cases d1 with
      | none =>
        simp only [h1, Option.getD_none, ne_eq, not_true_eq_false, if_false, hmode,
          if_true, reduceIte]
        cases h2 : decrypt_message content
            (get_encryption_key creds (get_current_pin creds now) now) with
        | error e => simp [h2]
        | ok d2 =>
          cases d2 with
          | none => simp [h2]
          | some s2 =>
            by_cases hs2 : s2 = ""
            · subst hs2
              simp [h2]
            · simp [h2, hs2]
      | some s1 =>
        by_cases hs1 : s1 = ""
        · subst hs1
          simp only [h1, Option.getD_some, ne_eq, not_true_eq_false, if_false, hmode,
            if_true, reduceIte]
          cases h2 : decrypt_message content
              (get_encryption_key creds (get_current_pin creds now) now) with
          | error e => simp [h2]
          | ok d2 =>
            cases d2 with
            | none => simp [h2]
            | some s2 =>
              by_cases hs2 : s2 = ""
              · subst hs2
                simp [h2]
              · simp [h2, hs2]
        · simp [h1, hs1]
  · simp only [on_message_received, if_neg hsender, h1, Option.getD_some]
    rw [if_pos hs]
  · simp only [on_message_received, if_neg hsender]
    rcases h1 with h1 | h1
    · simp only [h1, Option.getD_none, ne_eq, not_true_eq_false, if_false, hmode, reduceIte,
        h2, Option.getD_some]
      rw [if_pos hs]
    · simp only [h1, Option.getD_some, ne_eq, not_true_eq_false, if_false, hmode, reduceIte,
        h2]
      rw [if_pos hs]

/-- Witness for C2 (amended): the concrete previous-bucket message of the
counterexample satisfies the amended characterization — both the cached
(current-bucket) key and the retried current-bucket key fail, so the iff
yields the key-mismatch report. -/
theorem C2_witness :
    ((⟨"🔥", ["🔥"], "rotating", 0, none⟩ : RoomCredentials).mode = "rotating")
    ∧ ("alice" ≠ "me")
    ∧ ((on_message_received ⟨"🔥", ["🔥"], "rotating", 0, none⟩
          (some (get_encryption_key ⟨"🔥", ["🔥"], "rotating", 0, none⟩
            (get_current_pin ⟨"🔥", ["🔥"], "rotating", 0, none⟩ 30) 30))
          30 "alice"
          (encrypt_message "hi"
            (get_encryption_key ⟨"🔥", ["🔥"], "rotating", 0, none⟩
              (get_current_pin ⟨"🔥", ["🔥"], "rotating", 0, none⟩ 15) 15) 0)).1
        = ReceiveResult.keyMismatch
      ↔ ((decrypt_message
            (encrypt_message "hi"
              (get_encryption_key ⟨"🔥", ["🔥"], "rotating", 0, none⟩
                (get_current_pin ⟨"🔥", ["🔥"], "rotating", 0, none⟩ 15) 15) 0)
            (get_encryption_key ⟨"🔥", ["🔥"], "rotating", 0, none⟩
              (get_current_pin ⟨"🔥", ["🔥"], "rotating", 0, none⟩ 30) 30)
              = Except.ok none
          ∨ decrypt_message
              (encrypt_message "hi"
                (get_encryption_key ⟨"🔥", ["🔥"], "rotating", 0, none⟩
                  (get_current_pin ⟨"🔥", ["🔥"], "rotating", 0, none⟩ 15) 15) 0)
              (get_encryption_key ⟨"🔥", ["🔥"], "rotating", 0, none⟩
                (get_current_pin ⟨"🔥", ["🔥"], "rotating", 0, none⟩ 30) 30)
              = Except.ok (some ""))
        ∧ (decrypt_message
              (encrypt_message "hi"
                (get_encryption_key ⟨"🔥", ["🔥"], "rotating", 0, none⟩
                  (get_current_pin ⟨"🔥", ["🔥"], "rotating", 0, none⟩ 15) 15) 0)
              (get_encryption_key ⟨"🔥", ["🔥"], "rotating", 0, none⟩
                (get_current_pin ⟨"🔥", ["🔥"], "rotating", 0, none⟩ 30) 30)
              = Except.ok none
          ∨ decrypt_message
              (encrypt_message "hi"
                (get_encryption_key ⟨"🔥", ["🔥"], "rotating", 0, none⟩
                  (get_current_pin ⟨"🔥", ["🔥"], "rotating", 0, none⟩ 15) 15) 0)
              (get_encryption_key ⟨"🔥", ["🔥"], "rotating", 0, none⟩
                (get_current_pin ⟨"🔥", ["🔥"], "rotating", 0, none⟩ 30) 30)
              = Except.ok (some "")))) :=
  ⟨rfl, by decide,
    (C2_receive_amended ⟨"🔥", ["🔥"], "rotating", 0, none⟩
      (get_encryption_key ⟨"🔥", ["🔥"], "rotating", 0, none⟩
        (get_current_pin ⟨"🔥", ["🔥"], "rotating", 0, none⟩ 30) 30)
      30 "alice"
      (encrypt_message "hi"
        (get_encryption_key ⟨"🔥", ["🔥"], "rotating", 0, none⟩
          (get_current_pin ⟨"🔥", ["🔥"], "rotating", 0, none⟩ 15) 15) 0)
      rfl (by decide)).1⟩

end SOS
